import Mathlib

/-!
Shallow embedding of the dish-compositing program
(`src/dishes/combine.py` and `src/dishes/create_dish.py`).

The program loads a bowl image, a noodle image and up to three topping
images, resizes each to a fixed fraction of a 1024x1024 canvas, centers
it (toppings get an extra per-index offset), alpha-composites the stack
and saves one PNG.

Modelling choices:
* an image (`Img`) is a mode tag, a width, a height and a pixel map;
  pixels are RGBA quadruples of naturals (the program always works on
  images converted to RGBA);
* `PIL.Image.paste(src, box, mask)` is embedded with PIL's exact
  per-channel integer blend `MULDIV255` arithmetic, the mask being the
  pasted image's own alpha band;
* `PIL.Image.resize` with the LANCZOS filter sets the new dimensions
  exactly; the resampled pixel values are abstracted by an explicit
  kernel parameter `resample` threaded through every definition (no
  claim depends on the concrete filter output values);
* the Python float literals 0.80, 0.60, 0.40 are embedded as the exact
  rational values of the IEEE-754 doubles they denote, and Python's
  `int(...)` as truncation toward zero, so `int(canvas_size[0] * scale)`
  is computed exactly as CPython does;
* the filesystem is a map `FS := String → Option Img` (`none` models a
  path that cannot be opened, raising `FileNotFoundError`), and the
  side effects of a run are an explicit `Event` trace (reads, the one
  write of the saved image, the final print).
-/

/-- RGBA pixel: red, green, blue, alpha channels. -/
structure Pixel where
  r : Nat
  g : Nat
  b : Nat
  a : Nat
  deriving DecidableEq, Repr

/-- Image mode tag, as in PIL (`'RGBA'`, or anything else). -/
inductive Mode where
  | RGBA : Mode
  | other : String → Mode
  deriving DecidableEq, Repr

/-- An in-memory raster image: mode, dimensions and pixel map. -/
structure Img where
  mode : Mode
  width : Nat
  height : Nat
  pix : Nat → Nat → Pixel

/-- PIL resampling filter selector; the program only uses LANCZOS. -/
inductive Resampling where
  | LANCZOS : Resampling
  deriving DecidableEq, Repr

/-- Abstract resampling kernel: given the source image and the target
width and height, produces the pixel map of the resized image. It
abstracts PIL's LANCZOS filter, whose concrete pixel values none of the
verified properties depend on. -/
def Resample : Type := Img → Nat → Nat → Nat → Nat → Pixel

/-- `Image.new(mode, size, color)`: constant-color image. -/
def Image.new (m : Mode) (size : Nat × Nat) (color : Pixel) : Img :=
  ⟨m, size.1, size.2, fun _ _ => color⟩

/-- `img.convert('RGBA')` and friends: pixels are already stored as
RGBA quadruples, so conversion is the mode tag change. -/
def Img.convert (img : Img) (m : Mode) : Img :=
  { img with mode := m }

/-- `img.resize((w, h), filter)`: new dimensions, resampled pixels. -/
def Img.resize (resample : Resample) (img : Img) (size : Nat × Nat)
    (_filt : Resampling) : Img :=
  ⟨img.mode, size.1, size.2, resample img size.1 size.2⟩

/-- PIL's MULDIV255 macro: `(a * b + 128)` then the exact two-step
division by 255 via shifts, as in libImaging. -/
def MULDIV255 (a b : Nat) : Nat :=
  let t := a * b + 128
  ((t >>> 8) + t) >>> 8

/-- PIL's BLEND macro for one channel: background weighted by
`255 - mask`, foreground by `mask`. -/
def blendChan (bg fg m : Nat) : Nat :=
  MULDIV255 bg (255 - m) + MULDIV255 fg m

/-- Blend two RGBA pixels with mask value `m` (all four channels). -/
def blendPixel (bg fg : Pixel) (m : Nat) : Pixel :=
  ⟨blendChan bg.r fg.r m, blendChan bg.g fg.g m,
   blendChan bg.b fg.b m, blendChan bg.a fg.a m⟩

/-- `dst.paste(src, box, mask)` with an RGBA mask: inside the pasted
rectangle each channel is blended with the mask's alpha band; outside
it the destination is unchanged. Dimensions and mode of `dst` are
preserved. -/
def Img.paste (dst : Img) (src : Img) (box : Int × Int) (mask : Img) : Img :=
  { dst with
    pix := fun x y =>
      let sx : Int := (x : Int) - box.1
      let sy : Int := (y : Int) - box.2
      if 0 ≤ sx ∧ sx < (src.width : Int) ∧ 0 ≤ sy ∧ sy < (src.height : Int) then
        blendPixel (dst.pix x y) (src.pix sx.toNat sy.toNat)
          ((mask.pix sx.toNat sy.toNat).a)
      else
        dst.pix x y }

/-- Python's `int(q)` on a rational: truncation toward zero. -/
def pyInt (q : ℚ) : Int :=
  if 0 ≤ q then ⌊q⌋ else ⌈q⌉

/-- The exact rational value of the IEEE-754 double denoted by the
Python literal `0.80` (mantissa 7205759403792794, exponent -53). -/
def pyFloat080 : ℚ := (7205759403792794 : ℚ) / (9007199254740992 : ℚ)

/-- The exact rational value of the IEEE-754 double denoted by the
Python literal `0.60` (mantissa 5404319552844595, exponent -53). -/
def pyFloat060 : ℚ := (5404319552844595 : ℚ) / (9007199254740992 : ℚ)

/-- The exact rational value of the IEEE-754 double denoted by the
Python literal `0.40` (mantissa 7205759403792794, exponent -54). -/
def pyFloat040 : ℚ := (7205759403792794 : ℚ) / (18014398509481984 : ℚ)

/-- The `sizes` dict of `create_dish`: scale fractions for the three
fixed keys `'bowl'`, `'noodle'`, `'topping'`. -/
structure Sizes where
  bowl : ℚ
  noodle : ℚ
  topping : ℚ

/-- The scale table from the source: bowl 0.80, noodle 0.60,
topping 0.40 (as the exact doubles). -/
def sizes : Sizes := ⟨pyFloat080, pyFloat060, pyFloat040⟩

/-- Filesystem model: maps a path to the decoded image, or `none` when
the path cannot be opened (Python raises `FileNotFoundError`). -/
def FS : Type := String → Option Img

/-- The error the routine propagates: a path that cannot be opened. -/
inductive DishError where
  | missingFile : String → DishError
  deriving DecidableEq, Repr

/-- Observable side effects of a run. -/
inductive Event where
  | read : String → Event
  | write : String → Img → Event
  | print : String → Event

/-- Whether an event is a file write. -/
def Event.isWrite : Event → Bool
  | Event.write _ _ => true
  | _ => false

/-- Whether an event is a file read (attempted open). -/
def Event.isRead : Event → Bool
  | Event.read _ => true
  | _ => false

/-- The inner helper of `create_dish`:
`resize_and_center(img, scale)` resizes `img` to the square side
`int(canvas_size[0] * scale)` with LANCZOS and returns it with the
centered top-left position `((canvas_size[0] - new_size) // 2,
(canvas_size[1] - new_size) // 2)` (Python floor division). -/
def resize_and_center (resample : Resample) (canvas_size : Nat × Nat)
    (img : Img) (scale : ℚ) : Img × (Int × Int) :=
  let new_size : Int := pyInt ((canvas_size.1 : ℚ) * scale)
  let img_resized :=
    Img.resize resample img (new_size.toNat, new_size.toNat) Resampling.LANCZOS
  let x : Int := Int.fdiv ((canvas_size.1 : Int) - new_size) 2
  let y : Int := Int.fdiv ((canvas_size.2 : Int) - new_size) 2
  (img_resized, (x, y))

/-- The `offsets` table of `create_dish`: per-index topping offsets. -/
def offsets : List (Int × Int) :=
  [(0, -30), (-40, 25), (40, 25)]

/-- The topping loop of `create_dish`:
`for i, topping_path in enumerate(topping_paths[:3])`, threading the
running index `i`, the canvas under construction and the event trace.
`fb` is the fallback offset of the `else (0, 0)` branch, taken when `i`
is out of bounds for `offsets` (the source hard-codes `(0, 0)` there;
it is a parameter here so that its unreachability can be stated). -/
def toppingLoop (resample : Resample) (fs : FS) (canvas_size : Nat × Nat)
    (fb : Int × Int) :
    Nat → List String → Img → List Event → List Event × Except DishError Img
  | _, [], img, tr => (tr, Except.ok img)
  | i, topping_path :: rest, img, tr =>
    match fs topping_path with
    | none =>
      (tr ++ [Event.read topping_path],
       Except.error (DishError.missingFile topping_path))
    | some t0 =>
      let topping := t0.convert Mode.RGBA
      let rc := resize_and_center resample canvas_size topping sizes.topping
      let topping_resized := rc.1
      let base_pos := rc.2
      let off := if h : i < offsets.length then offsets.get ⟨i, h⟩ else fb
      let topping_pos := (base_pos.1 + off.1, base_pos.2 + off.2)
      let img2 := img.paste topping_resized topping_pos topping_resized
      toppingLoop resample fs canvas_size fb (i + 1) rest img2
        (tr ++ [Event.read topping_path])

/-- `create_dish` with the topping-loop fallback offset made explicit
(the source uses `(0, 0)`); returns the event trace and either the
propagated error or the returned `output_path`. -/
def create_dish_fb (fb : Int × Int) (resample : Resample) (fs : FS)
    (bowl_path noodle_path : String) (topping_paths : List String)
    (output_path : String) : List Event × Except DishError String :=
  let canvas_size : Nat × Nat := (1024, 1024)
  let final_image := Image.new Mode.RGBA canvas_size ⟨255, 255, 255, 0⟩
  match fs bowl_path with
  | none =>
    ([Event.read bowl_path], Except.error (DishError.missingFile bowl_path))
  | some bowl0 =>
    let bowl := bowl0.convert Mode.RGBA
    let rcb := resize_and_center resample canvas_size bowl sizes.bowl
    let final_image1 := final_image.paste rcb.1 rcb.2 rcb.1
    match fs noodle_path with
    | none =>
      ([Event.read bowl_path, Event.read noodle_path],
       Except.error (DishError.missingFile noodle_path))
    | some noodles0 =>
      let noodles := noodles0.convert Mode.RGBA
      let rcn := resize_and_center resample canvas_size noodles sizes.noodle
      let final_image2 := final_image1.paste rcn.1 rcn.2 rcn.1
      match toppingLoop resample fs canvas_size fb 0 (topping_paths.take 3)
          final_image2 [Event.read bowl_path, Event.read noodle_path] with
      | (tr, Except.error e) => (tr, Except.error e)
      | (tr, Except.ok final_image3) =>
        (tr ++ [Event.write output_path final_image3,
                Event.print ("✅ Dish created successfully: " ++ output_path)],
         Except.ok output_path)

namespace Combine

/-- `create_dish` as defined in `src/dishes/combine.py`. -/
def create_dish (resample : Resample) (fs : FS)
    (bowl_path noodle_path : String) (topping_paths : List String)
    (output_path : String) : List Event × Except DishError String :=
  create_dish_fb (0, 0) resample fs bowl_path noodle_path topping_paths
    output_path

end Combine

namespace CreateDishPy

/-- The topping loop of `create_dish` as defined in
`src/dishes/create_dish.py` (textually the same loop as in
`combine.py`, with its hard-coded `(0, 0)` fallback). -/
def toppingLoopP (resample : Resample) (fs : FS) (canvas_size : Nat × Nat) :
    Nat → List String → Img → List Event → List Event × Except DishError Img
  | _, [], img, tr => (tr, Except.ok img)
  | i, topping_path :: rest, img, tr =>
    match fs topping_path with
    | none =>
      (tr ++ [Event.read topping_path],
       Except.error (DishError.missingFile topping_path))
    | some t0 =>
      let topping := t0.convert Mode.RGBA
      let rc := resize_and_center resample canvas_size topping sizes.topping
      let topping_resized := rc.1
      let base_pos := rc.2
      let off := if h : i < offsets.length then offsets.get ⟨i, h⟩ else (0, 0)
      let topping_pos := (base_pos.1 + off.1, base_pos.2 + off.2)
      let img2 := img.paste topping_resized topping_pos topping_resized
      toppingLoopP resample fs canvas_size (i + 1) rest img2
        (tr ++ [Event.read topping_path])

/-- `create_dish` as defined in `src/dishes/create_dish.py`. -/
def create_dish (resample : Resample) (fs : FS)
    (bowl_path noodle_path : String) (topping_paths : List String)
    (output_path : String) : List Event × Except DishError String :=
  let canvas_size : Nat × Nat := (1024, 1024)
  let final_image := Image.new Mode.RGBA canvas_size ⟨255, 255, 255, 0⟩
  match fs bowl_path with
  | none =>
    ([Event.read bowl_path], Except.error (DishError.missingFile bowl_path))
  | some bowl0 =>
    let bowl := bowl0.convert Mode.RGBA
    let rcb := resize_and_center resample canvas_size bowl sizes.bowl
    let final_image1 := final_image.paste rcb.1 rcb.2 rcb.1
    match fs noodle_path with
    | none =>
      ([Event.read bowl_path, Event.read noodle_path],
       Except.error (DishError.missingFile noodle_path))
    | some noodles0 =>
      let noodles := noodles0.convert Mode.RGBA
      let rcn := resize_and_center resample canvas_size noodles sizes.noodle
      let final_image2 := final_image1.paste rcn.1 rcn.2 rcn.1
      match toppingLoopP resample fs canvas_size 0 (topping_paths.take 3)
          final_image2 [Event.read bowl_path, Event.read noodle_path] with
      | (tr, Except.error e) => (tr, Except.error e)
      | (tr, Except.ok final_image3) =>
        (tr ++ [Event.write output_path final_image3,
                Event.print ("✅ Dish created successfully: " ++ output_path)],
         Except.ok output_path)

end CreateDishPy

/-! Derived definitions used to state the verified properties. -/

/-- The blank canvas allocated by `create_dish`:
`Image.new('RGBA', (1024, 1024), (255, 255, 255, 0))`. -/
def blankCanvas : Img :=
  Image.new Mode.RGBA (1024, 1024) ⟨255, 255, 255, 0⟩

/-- One compositing step: paste a positioned layer onto the canvas,
using the layer image itself as the alpha mask (as every `paste` call
in `create_dish` does). -/
def pasteLayer (c : Img) (l : Img × (Int × Int)) : Img :=
  c.paste l.1 l.2 l.1

/-- Composite a list of positioned layers onto a canvas, in order. -/
def pasteAll (c : Img) (ls : List (Img × (Int × Int))) : Img :=
  ls.foldl pasteLayer c

/-- The positioned layer produced for topping number `i`: resize at the
topping scale, center, then add the `i`-th offset from `offsets`
(defaulting to `(0, 0)` beyond the table, as the source's `else`). -/
def toppingLayer (resample : Resample) (i : Nat) (t : Img) :
    Img × (Int × Int) :=
  let rc := resize_and_center resample (1024, 1024) (t.convert Mode.RGBA)
    sizes.topping
  let off := offsets.getD i (0, 0)
  (rc.1, (rc.2.1 + off.1, rc.2.2 + off.2))

/-- The full ordered layer stack of a successful run: bowl, then
noodles, then the toppings in input order with their per-index
offsets. -/
def layerList (resample : Resample) (bowl0 noodles0 : Img)
    (tops : List Img) : List (Img × (Int × Int)) :=
  (resize_and_center resample (1024, 1024) (bowl0.convert Mode.RGBA)
      sizes.bowl) ::
  (resize_and_center resample (1024, 1024) (noodles0.convert Mode.RGBA)
      sizes.noodle) ::
  tops.enum.map (fun p => toppingLayer resample p.1 p.2)

/-- Open every path in the list, succeeding only when all succeed
(the loop aborts at the first unopenable path, so a run can only
complete when all the paths it visits open). -/
def openAll (fs : FS) : List String → Option (List Img)
  | [] => some []
  | p :: rest =>
    match fs p with
    | none => none
    | some t =>
      match openAll fs rest with
      | none => none
      | some ts => some (t :: ts)

/-- All four channels of a pixel are in the 8-bit range. -/
def Pixel.Valid (p : Pixel) : Prop :=
  p.r ≤ 255 ∧ p.g ≤ 255 ∧ p.b ≤ 255 ∧ p.a ≤ 255

/-! Concrete fixtures used by the closed witness statements. -/

/-- A concrete 4x4 opaque black test image. -/
def testImg : Img := Image.new Mode.RGBA (4, 4) ⟨0, 0, 0, 255⟩

/-- A filesystem on which every path opens to `testImg`. -/
def fsW : FS := fun _ => some testImg

/-- A filesystem on which no path opens. -/
def fsNone : FS := fun _ => none

/-- A concrete (constant) resampling kernel. -/
def rsmpW : Resample := fun _ _ _ _ _ => ⟨0, 0, 0, 0⟩

/-- The body of one topping-loop iteration applied to the running
canvas: open result `t0`, convert, resize-and-center at the topping
scale, add the `i`-th offset (fallback `fb`), paste with the topping's
own alpha. -/
def toppingStep (resample : Resample) (cs : Nat × Nat) (fb : Int × Int)
    (i : Nat) (t0 : Img) (img : Img) : Img :=
  let topping := t0.convert Mode.RGBA
  let rc := resize_and_center resample cs topping sizes.topping
  let off := if h : i < offsets.length then offsets.get ⟨i, h⟩ else fb
  img.paste rc.1 (rc.2.1 + off.1, rc.2.2 + off.2) rc.1

/-- The canvas after compositing bowl and noodles. -/
def baseCanvas (resample : Resample) (bowl0 noodles0 : Img) : Img :=
  pasteLayer
    (pasteLayer blankCanvas
      (resize_and_center resample (1024, 1024) (bowl0.convert Mode.RGBA)
        sizes.bowl))
    (resize_and_center resample (1024, 1024) (noodles0.convert Mode.RGBA)
      sizes.noodle)

/-- The success message printed by `create_dish`. -/
def successMsg (o : String) : String :=
  "✅ Dish created successfully: " ++ o

/-! Arithmetic facts about the scale constants and the blend macro. -/

/-- Bowl: `int(1024 * 0.80)` evaluates to 819 on the exact doubles. -/
theorem pyInt_bowl : pyInt ((1024 : ℚ) * sizes.bowl) = 819 := by
  norm_num [pyInt, sizes, pyFloat080]

/-- Noodle: `int(1024 * 0.60)` evaluates to 614 on the exact doubles. -/
theorem pyInt_noodle : pyInt ((1024 : ℚ) * sizes.noodle) = 614 := by
  norm_num [pyInt, sizes, pyFloat060]

/-- Topping: `int(1024 * 0.40)` evaluates to 409 on the exact doubles. -/
theorem pyInt_topping : pyInt ((1024 : ℚ) * sizes.topping) = 409 := by
  norm_num [pyInt, sizes, pyFloat040]

/-- PIL's MULDIV255 is the correctly rounded `a * b / 255` on 8-bit
inputs. -/
theorem MULDIV255_round (a b : Nat) (ha : a ≤ 255) (hb : b ≤ 255) :
    MULDIV255 a b = (2 * (a * b) + 255) / 510 := by
  have hv : a * b ≤ 65025 := Nat.mul_le_mul ha hb
  unfold MULDIV255
  simp only [Nat.shiftRight_eq_div_pow]
  omega

/-- MULDIV255 by a full mask is the identity on 8-bit inputs. -/
theorem MULDIV255_full (x : Nat) (hx : x ≤ 255) : MULDIV255 x 255 = x := by
  unfold MULDIV255
  simp only [Nat.shiftRight_eq_div_pow]
  omega

/-- MULDIV255 by a zero mask is zero. -/
theorem MULDIV255_zero (x : Nat) : MULDIV255 x 0 = 0 := by
  unfold MULDIV255
  simp only [Nat.shiftRight_eq_div_pow]
  omega

/-- Blending with a fully opaque mask replaces the background channel
by the foreground channel. -/
theorem blendChan_full255 (bg fg : Nat) (hfg : fg ≤ 255) :
    blendChan bg fg 255 = fg := by
  unfold blendChan
  rw [Nat.sub_self, MULDIV255_zero, MULDIV255_full fg hfg, Nat.zero_add]

/-- Blending a fully opaque pixel replaces the background pixel. -/
theorem blendPixel_full255 (bg fg : Pixel) (hfg : fg.Valid) :
    blendPixel bg fg 255 = fg := by
  obtain ⟨h1, h2, h3, h4⟩ := hfg
  unfold blendPixel
  rw [blendChan_full255 _ _ h1, blendChan_full255 _ _ h2,
    blendChan_full255 _ _ h3, blendChan_full255 _ _ h4]

/-- The dependent if over `offsets` with fallback `(0, 0)` is exactly
`List.getD`. -/
theorem offsets_dite (i : Nat) :
    (if h : i < offsets.length then offsets.get ⟨i, h⟩ else ((0 : Int), (0 : Int)))
      = offsets.getD i (0, 0) := by
  by_cases h : i < offsets.length
  · rw [dif_pos h, List.getD_eq_get _ _ h]
  · rw [dif_neg h, List.getD_eq_default]
    omega


/-! Behaviour of the topping loop. -/

/-- Equation: the loop on an empty list returns the canvas. -/
theorem toppingLoop_nil {resample : Resample} {fs : FS} {cs : Nat × Nat}
    {fb : Int × Int} {i : Nat} {img : Img} {tr : List Event} :
    toppingLoop resample fs cs fb i [] img tr = (tr, Except.ok img) := rfl

/-- Equation: the loop aborts at a path that does not open. -/
theorem toppingLoop_cons_none {resample : Resample} {fs : FS}
    {cs : Nat × Nat} {fb : Int × Int} {i : Nat} {img : Img} {tr : List Event}
    {p : String} {rest : List String} (hp : fs p = none) :
    toppingLoop resample fs cs fb i (p :: rest) img tr =
      (tr ++ [Event.read p], Except.error (DishError.missingFile p)) := by
  simp only [toppingLoop, hp]

/-- Equation: the loop steps through a path that opens. -/
theorem toppingLoop_cons_some {resample : Resample} {fs : FS}
    {cs : Nat × Nat} {fb : Int × Int} {i : Nat} {img : Img} {tr : List Event}
    {p : String} {rest : List String} {t0 : Img} (hp : fs p = some t0) :
    toppingLoop resample fs cs fb i (p :: rest) img tr =
      toppingLoop resample fs cs fb (i + 1) rest
        (toppingStep resample cs fb i t0 img) (tr ++ [Event.read p]) := by
  simp only [toppingLoop, toppingStep, hp]

/-- With the source's `(0, 0)` fallback the step is the composite of
the `i`-th topping layer. -/
theorem toppingStep_eq (resample : Resample) (i : Nat) (t0 img : Img) :
    toppingStep resample (1024, 1024) (0, 0) i t0 img =
      pasteLayer img (toppingLayer resample i t0) := by
  unfold toppingStep pasteLayer toppingLayer
  rw [offsets_dite]

/-- The step does not depend on the fallback at an in-table index. -/
theorem toppingStep_lt (resample : Resample) (cs : Nat × Nat)
    (fb : Int × Int) (i : Nat) (t0 img : Img) (hi : i < offsets.length) :
    toppingStep resample cs fb i t0 img =
      toppingStep resample cs (0, 0) i t0 img := by
  unfold toppingStep
  rw [dif_pos hi, dif_pos hi]

/-- The loop only ever appends read events for paths of its list to the
incoming trace. -/
theorem toppingLoop_trace (resample : Resample) (fs : FS)
    (cs : Nat × Nat) (fb : Int × Int) :
    ∀ (l : List String) (i : Nat) (img : Img) (tr : List Event),
      ∃ rs, (toppingLoop resample fs cs fb i l img tr).1 = tr ++ rs ∧
        ∀ e ∈ rs, ∃ p, p ∈ l ∧ e = Event.read p
  | [], _, _, tr => ⟨[], by rw [toppingLoop_nil]; simp⟩
  | p :: rest, i, img, tr => by
    cases hp : fs p with
    | none =>
      refine ⟨[Event.read p], ?_, ?_⟩
      · rw [toppingLoop_cons_none hp]
      · rintro e he
        rcases List.mem_singleton.mp he with rfl
        exact ⟨p, List.mem_cons_self p rest, rfl⟩
    | some t0 =>
      obtain ⟨rs, hrs, hmem⟩ := toppingLoop_trace resample fs cs fb rest
        (i + 1) (toppingStep resample cs fb i t0 img) (tr ++ [Event.read p])
      refine ⟨Event.read p :: rs, ?_, ?_⟩
      · rw [toppingLoop_cons_some hp, hrs]
        simp
      · intro e he
        rcases List.mem_cons.mp he with rfl | he'
        · exact ⟨p, List.mem_cons_self p rest, rfl⟩
        · obtain ⟨q, hq, rfl⟩ := hmem e he'
          exact ⟨q, List.mem_cons_of_mem p hq, rfl⟩

/-- If some path of the list fails to open, the loop aborts with a
`missingFile` error for a failing path of the list. -/
theorem toppingLoop_err (resample : Resample) (fs : FS)
    (cs : Nat × Nat) (fb : Int × Int) :
    ∀ (l : List String) (i : Nat) (img : Img) (tr : List Event),
      (∃ p ∈ l, fs p = none) →
      ∃ p, p ∈ l ∧ fs p = none ∧
        (toppingLoop resample fs cs fb i l img tr).2 =
          Except.error (DishError.missingFile p)
  | [], _, _, _, h => by simp at h
  | p :: rest, i, img, tr, h => by
    cases hp : fs p with
    | none =>
      refine ⟨p, List.mem_cons_self p rest, hp, ?_⟩
      rw [toppingLoop_cons_none hp]
    | some t0 =>
      have hrest : ∃ q ∈ rest, fs q = none := by
        obtain ⟨q, hq, hqn⟩ := h
        rcases List.mem_cons.mp hq with rfl | hq'
        · rw [hp] at hqn
          exact absurd hqn (by simp)
        · exact ⟨q, hq', hqn⟩
      obtain ⟨q, hq, hqn, hres⟩ := toppingLoop_err resample fs cs fb rest
        (i + 1) (toppingStep resample cs fb i t0 img) (tr ++ [Event.read p])
        hrest
      refine ⟨q, List.mem_cons_of_mem p hq, hqn, ?_⟩
      rw [toppingLoop_cons_some hp]
      exact hres

/-- When every path of the list opens, the loop with the source's
`(0, 0)` fallback reads the paths in order and composites the
per-index topping layers, in order, onto the incoming canvas. -/
theorem toppingLoop_ok (resample : Resample) (fs : FS) :
    ∀ (l : List String) (tops : List Img) (i : Nat) (img : Img)
      (tr : List Event),
      openAll fs l = some tops →
      toppingLoop resample fs (1024, 1024) (0, 0) i l img tr =
        (tr ++ l.map Event.read,
         Except.ok (pasteAll img
           ((List.enumFrom i tops).map fun p => toppingLayer resample p.1 p.2)))
  | [], tops, i, img, tr, h => by
    simp only [openAll, Option.some.injEq] at h
    subst h
    rw [toppingLoop_nil]
    simp [pasteAll]
  | p :: rest, tops, i, img, tr, h => by
    unfold openAll at h
    cases hp : fs p with
    | none =>
      rw [hp] at h
      exact absurd h (by simp)
    | some t0 =>
      rw [hp] at h
      cases hrest : openAll fs rest with
      | none =>
        rw [hrest] at h
        exact absurd h (by simp)
      | some ts =>
        rw [hrest] at h
        simp only [Option.some.injEq] at h
        subst h
        rw [toppingLoop_cons_some hp,
          toppingLoop_ok resample fs rest ts (i + 1) _ _ hrest,
          toppingStep_eq]
        simp [pasteAll, List.enumFrom]

/-- The fallback offset is irrelevant whenever the loop starts at an
index from which it cannot run past the offsets table. -/
theorem toppingLoop_fb (resample : Resample) (fs : FS) (cs : Nat × Nat)
    (fb : Int × Int) :
    ∀ (l : List String) (i : Nat) (img : Img) (tr : List Event),
      i + l.length ≤ 3 →
      toppingLoop resample fs cs fb i l img tr =
        toppingLoop resample fs cs (0, 0) i l img tr
  | [], _, _, _, _ => rfl
  | p :: rest, i, img, tr, hle => by
    cases hp : fs p with
    | none => rw [toppingLoop_cons_none hp, toppingLoop_cons_none hp]
    | some t0 =>
      have hi : i < offsets.length := by
        simp only [List.length_cons] at hle
        simp only [offsets, List.length]
        omega
      rw [toppingLoop_cons_some hp, toppingLoop_cons_some hp,
        toppingStep_lt resample cs fb i t0 img hi]
      exact toppingLoop_fb resample fs cs fb rest (i + 1) _ _
        (by simp only [List.length_cons] at hle; omega)

/-- The loop run by two filesystems that agree on the list's paths is
the same. -/
theorem toppingLoop_congr (resample : Resample) (fs1 fs2 : FS)
    (cs : Nat × Nat) (fb : Int × Int) :
    ∀ (l : List String) (i : Nat) (img : Img) (tr : List Event),
      (∀ p ∈ l, fs1 p = fs2 p) →
      toppingLoop resample fs1 cs fb i l img tr =
        toppingLoop resample fs2 cs fb i l img tr
  | [], _, _, _, _ => rfl
  | p :: rest, i, img, tr, h => by
    have hp12 : fs1 p = fs2 p := h p (List.mem_cons_self p rest)
    cases hp : fs1 p with
    | none =>
      rw [toppingLoop_cons_none hp, toppingLoop_cons_none (hp12 ▸ hp)]
    | some t0 =>
      rw [toppingLoop_cons_some hp, toppingLoop_cons_some (hp12 ▸ hp)]
      exact toppingLoop_congr resample fs1 fs2 cs fb rest (i + 1) _ _
        (fun q hq => h q (List.mem_cons_of_mem p hq))

/-- The topping step leaves the canvas dimensions and mode unchanged. -/
theorem toppingStep_dims (resample : Resample) (cs : Nat × Nat)
    (fb : Int × Int) (i : Nat) (t0 img : Img) :
    (toppingStep resample cs fb i t0 img).width = img.width ∧
    (toppingStep resample cs fb i t0 img).height = img.height ∧
    (toppingStep resample cs fb i t0 img).mode = img.mode := by
  refine ⟨?_, ?_, ?_⟩ <;> simp [toppingStep, Img.paste]

/-- A successful loop leaves the canvas dimensions and mode unchanged. -/
theorem toppingLoop_dims (resample : Resample) (fs : FS) (cs : Nat × Nat)
    (fb : Int × Int) :
    ∀ (l : List String) (i : Nat) (img : Img) (tr : List Event) (out : Img),
      (toppingLoop resample fs cs fb i l img tr).2 = Except.ok out →
      out.width = img.width ∧ out.height = img.height ∧ out.mode = img.mode
  | [], i, img, tr, out, h => by
    rw [toppingLoop_nil] at h
    simp only [Except.ok.injEq] at h
    subst h
    exact ⟨rfl, rfl, rfl⟩
  | p :: rest, i, img, tr, out, h => by
    cases hp : fs p with
    | none =>
      rw [toppingLoop_cons_none hp] at h
      exact absurd h (by simp)
    | some t0 =>
      rw [toppingLoop_cons_some hp] at h
      obtain ⟨h1, h2, h3⟩ := toppingLoop_dims resample fs cs fb rest (i + 1)
        (toppingStep resample cs fb i t0 img) (tr ++ [Event.read p]) out h
      obtain ⟨w1, w2, w3⟩ := toppingStep_dims resample cs fb i t0 img
      exact ⟨h1.trans w1, h2.trans w2, h3.trans w3⟩

/-- A successful loop's trace is the incoming trace followed by the
reads of the list's paths, in order. -/
theorem toppingLoop_ok_trace (resample : Resample) (fs : FS)
    (cs : Nat × Nat) (fb : Int × Int) :
    ∀ (l : List String) (i : Nat) (img : Img) (tr : List Event),
      (∃ out, (toppingLoop resample fs cs fb i l img tr).2 = Except.ok out) →
      (toppingLoop resample fs cs fb i l img tr).1 = tr ++ l.map Event.read
  | [], i, img, tr, _ => by
    rw [toppingLoop_nil]
    simp
  | p :: rest, i, img, tr, h => by
    obtain ⟨out, hout⟩ := h
    cases hp : fs p with
    | none =>
      rw [toppingLoop_cons_none hp] at hout
      exact absurd hout (by simp)
    | some t0 =>
      rw [toppingLoop_cons_some hp] at hout ⊢
      rw [toppingLoop_ok_trace resample fs cs fb rest (i + 1)
        (toppingStep resample cs fb i t0 img) (tr ++ [Event.read p])
        ⟨out, hout⟩]
      simp

/-! Behaviour of `create_dish` itself. -/

/-- `combine.py`'s `create_dish` is the fallback-generic routine at the
source's `(0, 0)` fallback. -/
theorem create_dish_eq_fb (resample : Resample) (fs : FS)
    (b n : String) (tps : List String) (o : String) :
    Combine.create_dish resample fs b n tps o =
      create_dish_fb (0, 0) resample fs b n tps o := rfl

/-- Equation: an unopenable bowl path aborts the run at once. -/
theorem create_dish_fb_bowl_none {fb : Int × Int} {resample : Resample}
    {fs : FS} {b n : String} {tps : List String} {o : String}
    (hb : fs b = none) :
    create_dish_fb fb resample fs b n tps o =
      ([Event.read b], Except.error (DishError.missingFile b)) := by
  simp only [create_dish_fb, hb]

/-- Equation: an unopenable noodle path aborts after the bowl read. -/
theorem create_dish_fb_noodle_none {fb : Int × Int} {resample : Resample}
    {fs : FS} {b n : String} {tps : List String} {o : String} {bowl0 : Img}
    (hb : fs b = some bowl0) (hn : fs n = none) :
    create_dish_fb fb resample fs b n tps o =
      ([Event.read b, Event.read n],
       Except.error (DishError.missingFile n)) := by
  simp only [create_dish_fb, hb, hn]

/-- Equation: a failing topping loop propagates its trace and error. -/
theorem create_dish_fb_loop_err {fb : Int × Int} {resample : Resample}
    {fs : FS} {b n : String} {tps : List String} {o : String}
    {bowl0 noodles0 : Img} {tr : List Event} {e : DishError}
    (hb : fs b = some bowl0) (hn : fs n = some noodles0)
    (hloop : toppingLoop resample fs (1024, 1024) fb 0 (tps.take 3)
      (baseCanvas resample bowl0 noodles0) [Event.read b, Event.read n] =
        (tr, Except.error e)) :
    create_dish_fb fb resample fs b n tps o = (tr, Except.error e) := by
  simp only [baseCanvas, pasteLayer, blankCanvas] at hloop
  simp only [create_dish_fb, hb, hn]
  rw [hloop]

/-- Equation: a successful topping loop leads to the save and return. -/
theorem create_dish_fb_loop_ok {fb : Int × Int} {resample : Resample}
    {fs : FS} {b n : String} {tps : List String} {o : String}
    {bowl0 noodles0 : Img} {tr : List Event} {img3 : Img}
    (hb : fs b = some bowl0) (hn : fs n = some noodles0)
    (hloop : toppingLoop resample fs (1024, 1024) fb 0 (tps.take 3)
      (baseCanvas resample bowl0 noodles0) [Event.read b, Event.read n] =
        (tr, Except.ok img3)) :
    create_dish_fb fb resample fs b n tps o =
      (tr ++ [Event.write o img3, Event.print (successMsg o)],
       Except.ok o) := by
  simp only [baseCanvas, pasteLayer, blankCanvas] at hloop
  simp only [create_dish_fb, hb, hn, successMsg]
  rw [hloop]

/-- `openAll` fails exactly when some path of the list fails to open. -/
theorem openAll_none_iff (fs : FS) :
    ∀ l : List String, openAll fs l = none ↔ ∃ p ∈ l, fs p = none
  | [] => by simp [openAll]
  | p :: rest => by
    unfold openAll
    cases hp : fs p with
    | none => simp [hp]
    | some t0 =>
      cases hrest : openAll fs rest with
      | none =>
        obtain ⟨q, hq, hqn⟩ := (openAll_none_iff fs rest).mp hrest
        constructor
        · intro _
          exact ⟨q, List.mem_cons_of_mem p hq, hqn⟩
        · intro _
          rfl
      | some ts =>
        constructor
        · intro h
          exact absurd h (by simp)
        · rintro ⟨q, hq, hqn⟩
          rcases List.mem_cons.mp hq with rfl | hq'
          · rw [hp] at hqn
            exact absurd hqn (by simp)
          · have h2 : openAll fs rest = none :=
              (openAll_none_iff fs rest).mpr ⟨q, hq', hqn⟩
            rw [hrest] at h2
            exact absurd h2 (by simp)

/-- A successful `create_dish` run: every input opens, the trace is the
reads in order followed by the single write of the composited stack and
the success message, and the call returns the output path. -/
theorem create_dish_ok {resample : Resample} {fs : FS} {b n : String}
    {tps : List String} {o : String} {bowl0 noodles0 : Img} {tops : List Img}
    (hb : fs b = some bowl0) (hn : fs n = some noodles0)
    (ht : openAll fs (tps.take 3) = some tops) :
    Combine.create_dish resample fs b n tps o =
      (Event.read b :: Event.read n :: ((tps.take 3).map Event.read ++
        [Event.write o
          (pasteAll blankCanvas (layerList resample bowl0 noodles0 tops)),
         Event.print (successMsg o)]),
       Except.ok o) := by
  have hloop := toppingLoop_ok resample fs (tps.take 3) tops 0
    (baseCanvas resample bowl0 noodles0) [Event.read b, Event.read n] ht
  rw [create_dish_eq_fb, create_dish_fb_loop_ok hb hn hloop]
  simp only [layerList, pasteAll, List.enum, List.foldl, pasteLayer,
    baseCanvas, List.cons_append, List.nil_append]

/-! The claims. -/

/-- C1: for every input image, the resized layer dimensions are exactly
819x819 for the bowl (`int(1024 * 0.80)`), 614x614 for the noodle
(`int(1024 * 0.60)`) and 409x409 for each topping (`int(1024 * 0.40)`),
as computed by `int(canvas_size[0] * scale)` on the exact
double-precision values of the scale constants. -/
theorem claim_C1 (resample : Resample) (img : Img) :
    pyInt ((1024 : ℚ) * sizes.bowl) = 819 ∧
    pyInt ((1024 : ℚ) * sizes.noodle) = 614 ∧
    pyInt ((1024 : ℚ) * sizes.topping) = 409 ∧
    (resize_and_center resample (1024, 1024) img sizes.bowl).1.width = 819 ∧
    (resize_and_center resample (1024, 1024) img sizes.bowl).1.height = 819 ∧
    (resize_and_center resample (1024, 1024) img sizes.noodle).1.width = 614 ∧
    (resize_and_center resample (1024, 1024) img sizes.noodle).1.height = 614 ∧
    (resize_and_center resample (1024, 1024) img sizes.topping).1.width = 409 ∧
    (resize_and_center resample (1024, 1024) img sizes.topping).1.height
      = 409 := by
  refine ⟨pyInt_bowl, pyInt_noodle, pyInt_topping, ?_, ?_, ?_, ?_, ?_, ?_⟩ <;>
    simp [resize_and_center, Img.resize, pyInt_bowl, pyInt_noodle,
      pyInt_topping]

/-- C2: every layer of resized size S is pasted at top-left position
`((1024 - S) // 2, (1024 - S) // 2)` (integer floor division) — bowl at
(102, 102), noodle at (205, 205), toppings at base (307, 307) — and
topping i gets the i-th offset of the ordered table
`[(0,-30), (-40,25), (40,25)]` added, giving final topping positions
(307, 277), (267, 332), (347, 332). -/
theorem claim_C2 (resample : Resample) (img timg : Img) (scale : ℚ) :
    ((resize_and_center resample (1024, 1024) img scale).2 =
      (Int.fdiv (1024 - pyInt ((1024 : ℚ) * scale)) 2,
       Int.fdiv (1024 - pyInt ((1024 : ℚ) * scale)) 2)) ∧
    (resize_and_center resample (1024, 1024) img sizes.bowl).2 = (102, 102) ∧
    (resize_and_center resample (1024, 1024) img sizes.noodle).2
      = (205, 205) ∧
    (resize_and_center resample (1024, 1024) img sizes.topping).2
      = (307, 307) ∧
    offsets = [(0, -30), (-40, 25), (40, 25)] ∧
    (toppingLayer resample 0 timg).2 = (307, 277) ∧
    (toppingLayer resample 1 timg).2 = (267, 332) ∧
    (toppingLayer resample 2 timg).2 = (347, 332) := by
  refine ⟨?_, ?_, ?_, ?_, rfl, ?_, ?_, ?_⟩ <;>
    simp [resize_and_center, Img.resize, toppingLayer, offsets,
      pyInt_bowl, pyInt_noodle, pyInt_topping]

/-- Counting reads over a read-mapped list gives its length. -/
theorem countP_read_map (l : List String) :
    (l.map Event.read).countP Event.isRead = l.length := by
  induction l with
  | nil => rfl
  | cons p rest ih => simp [List.countP_cons, Event.isRead, ih]

/-- A read-mapped list contains no writes. -/
theorem countP_write_map (l : List String) :
    (l.map Event.read).countP Event.isWrite = 0 := by
  induction l with
  | nil => rfl
  | cons p rest ih => simp [List.countP_cons, Event.isWrite, ih]

/-- `pasteAll` preserves the canvas dimensions and mode. -/
theorem pasteAll_dims :
    ∀ (ls : List (Img × (Int × Int))) (c : Img),
      (pasteAll c ls).width = c.width ∧ (pasteAll c ls).height = c.height ∧
      (pasteAll c ls).mode = c.mode
  | [], _ => ⟨rfl, rfl, rfl⟩
  | l :: ls, c => by
    have h := pasteAll_dims ls (pasteLayer c l)
    have h2 : (pasteLayer c l).width = c.width ∧
        (pasteLayer c l).height = c.height ∧
        (pasteLayer c l).mode = c.mode := by
      refine ⟨?_, ?_, ?_⟩ <;> simp [pasteLayer, Img.paste]
    exact ⟨h.1.trans h2.1, h.2.1.trans h2.2.1, h.2.2.trans h2.2.2⟩

/-- Full disjunctive characterisation of a `create_dish` run: either
some needed input fails to open and the run returns its error with a
trace of reads only, or every needed input opens and the run returns
the output path with the reads, the one write of the composited stack,
and the success message. -/
theorem create_dish_shape (resample : Resample) (fs : FS) (b n : String)
    (tps : List String) (o : String) :
    (∃ p, fs p = none ∧ (p = b ∨ p = n ∨ p ∈ tps.take 3) ∧
      ∃ rs, Combine.create_dish resample fs b n tps o =
          (rs, Except.error (DishError.missingFile p)) ∧
        ∀ e ∈ rs, ∃ q, e = Event.read q ∧
          (q = b ∨ q = n ∨ q ∈ tps.take 3)) ∨
    (∃ bowl0 noodles0 tops, fs b = some bowl0 ∧ fs n = some noodles0 ∧
      openAll fs (tps.take 3) = some tops ∧
      Combine.create_dish resample fs b n tps o =
        (Event.read b :: Event.read n :: ((tps.take 3).map Event.read ++
          [Event.write o
            (pasteAll blankCanvas (layerList resample bowl0 noodles0 tops)),
           Event.print (successMsg o)]),
         Except.ok o)) := by
  cases hfb : fs b with
  | none =>
    left
    refine ⟨b, hfb, Or.inl rfl, [Event.read b], ?_, ?_⟩
    · rw [create_dish_eq_fb, create_dish_fb_bowl_none hfb]
    · intro e he
      rcases List.mem_singleton.mp he with rfl
      exact ⟨b, rfl, Or.inl rfl⟩
  | some bowl0 =>
    cases hfn : fs n with
    | none =>
      left
      refine ⟨n, hfn, Or.inr (Or.inl rfl),
        [Event.read b, Event.read n], ?_, ?_⟩
      · rw [create_dish_eq_fb, create_dish_fb_noodle_none hfb hfn]
      · intro e he
        simp only [List.mem_cons, List.not_mem_nil, or_false] at he
        rcases he with rfl | rfl
        · exact ⟨b, rfl, Or.inl rfl⟩
        · exact ⟨n, rfl, Or.inr (Or.inl rfl)⟩
    | some noodles0 =>
      cases hta : openAll fs (tps.take 3) with
      | none =>
        left
        have hex := (openAll_none_iff fs (tps.take 3)).mp hta
        obtain ⟨p, hmem, hpn, herr⟩ := toppingLoop_err resample fs
          (1024, 1024) (0, 0) (tps.take 3) 0
          (baseCanvas resample bowl0 noodles0)
          [Event.read b, Event.read n] hex
        obtain ⟨rs0, htr, hread⟩ := toppingLoop_trace resample fs
          (1024, 1024) (0, 0) (tps.take 3) 0
          (baseCanvas resample bowl0 noodles0)
          [Event.read b, Event.read n]
        have hpair : toppingLoop resample fs (1024, 1024) (0, 0) 0
            (tps.take 3) (baseCanvas resample bowl0 noodles0)
            [Event.read b, Event.read n] =
            ([Event.read b, Event.read n] ++ rs0,
             Except.error (DishError.missingFile p)) :=
          Prod.ext_iff.mpr ⟨htr, herr⟩
        refine ⟨p, hpn, Or.inr (Or.inr hmem),
          [Event.read b, Event.read n] ++ rs0, ?_, ?_⟩
        · rw [create_dish_eq_fb, create_dish_fb_loop_err hfb hfn hpair]
        · intro e he
          rcases List.mem_append.mp he with h2 | h2
          · simp only [List.mem_cons, List.not_mem_nil, or_false] at h2
            rcases h2 with rfl | rfl
            · exact ⟨b, rfl, Or.inl rfl⟩
            · exact ⟨n, rfl, Or.inr (Or.inl rfl)⟩
          · obtain ⟨q, hql, he'⟩ := hread e h2
            subst he'
            exact ⟨q, rfl, Or.inr (Or.inr hql)⟩
      | some tops =>
        right
        exact ⟨bowl0, noodles0, tops, rfl, rfl, rfl,
          create_dish_ok hfb hfn hta⟩

/-- Counting reads over a take of a read-mapped list. -/
theorem countP_read_take_map (k : Nat) (l : List String) :
    ((l.map Event.read).take k).countP Event.isRead = min k l.length := by
  rw [← List.map_take, countP_read_map, List.length_take]

/-- C3: `create_dish` composites exactly `min(len(topping_paths), 3)`
toppings: the run equals the run on the first three topping paths
(pixel-identical output), every path it reads is the bowl, the noodle
or one of the first three toppings, and a successful run performs
exactly `2 + min(len, 3)` reads. -/
theorem claim_C3 (resample : Resample) (fs : FS) (b n : String)
    (tps : List String) (o : String) :
    Combine.create_dish resample fs b n tps o =
      Combine.create_dish resample fs b n (tps.take 3) o ∧
    (∀ p, Event.read p ∈ (Combine.create_dish resample fs b n tps o).1 →
      p = b ∨ p = n ∨ p ∈ tps.take 3) ∧
    ((Combine.create_dish resample fs b n tps o).2 = Except.ok o →
      ((Combine.create_dish resample fs b n tps o).1.countP Event.isRead)
        = 2 + min tps.length 3) := by
  refine ⟨?_, ?_, ?_⟩
  · simp only [Combine.create_dish, create_dish_fb, List.take_take,
      Nat.min_self]
  · rcases create_dish_shape resample fs b n tps o with
      ⟨p, _, _, rs, heq, hrs⟩ | ⟨bowl0, noodles0, tops, _, _, _, heq⟩
    · intro q hq
      rw [heq] at hq
      obtain ⟨q', heq', hloc⟩ := hrs _ hq
      obtain rfl : q = q' := by simpa using heq'
      exact hloc
    · intro q hq
      rw [heq] at hq
      rcases List.mem_cons.mp hq with h1 | hq2
      · exact Or.inl (Event.read.inj h1)
      rcases List.mem_cons.mp hq2 with h1 | hq3
      · exact Or.inr (Or.inl (Event.read.inj h1))
      rcases List.mem_append.mp hq3 with h1 | h1
      · obtain ⟨q', hq', he⟩ := List.mem_map.mp h1
        obtain rfl := Event.read.inj he
        exact Or.inr (Or.inr hq')
      rcases List.mem_cons.mp h1 with h2 | h3
      · exact absurd h2 (by simp)
      rcases List.mem_cons.mp h3 with h2 | h4
      · exact absurd h2 (by simp)
      exact absurd h4 (by simp)
  · rcases create_dish_shape resample fs b n tps o with
      ⟨p, _, _, rs, heq, hrs⟩ | ⟨bowl0, noodles0, tops, _, _, _, heq⟩
    · intro hok
      rw [heq] at hok
      exact absurd hok (by simp)
    · intro _
      rw [heq]
      simp [List.countP_cons, List.countP_append, List.countP_nil,
        countP_read_map, countP_read_take_map, Event.isRead,
        List.length_take]
      omega

/-- C3 witness: with four topping paths on a filesystem where every
path opens, the run succeeds and performs 2 + min(4, 3) = 5 reads. -/
theorem claim_C3_witness :
    (Combine.create_dish rsmpW fsW "b.png" "n.png"
      ["t1.png", "t2.png", "t3.png", "t4.png"] "o.png").2
        = Except.ok "o.png" ∧
    ((Combine.create_dish rsmpW fsW "b.png" "n.png"
      ["t1.png", "t2.png", "t3.png", "t4.png"] "o.png").1.countP
        Event.isRead)
      = 2 + min (["t1.png", "t2.png", "t3.png", "t4.png"].length) 3 :=
  ⟨rfl, (claim_C3 rsmpW fsW "b.png" "n.png"
    ["t1.png", "t2.png", "t3.png", "t4.png"] "o.png").2.2 rfl⟩

/-- C4: on a successful run the written image is the ordered composite
bowl → noodle → toppings-in-input-order, each pasted with its own alpha
as mask (`layerList`/`pasteLayer`); wherever a pasted pixel is fully
opaque it replaces the canvas pixel, and in general each channel inside
the pasted rectangle is the PIL proportional alpha blend (the correctly
rounded `bg*(255-α)/255 + fg*α/255`). -/
theorem claim_C4 (resample : Resample) (fs : FS) (b n : String)
    (tps : List String) (o : String) (bowl0 noodles0 : Img)
    (tops : List Img) (hb : fs b = some bowl0) (hn : fs n = some noodles0)
    (ht : openAll fs (tps.take 3) = some tops) :
    (Event.write o
        (pasteAll blankCanvas (layerList resample bowl0 noodles0 tops))
      ∈ (Combine.create_dish resample fs b n tps o).1) ∧
    (∀ (dst src : Img) (box : Int × Int) (x y : Nat),
      0 ≤ (x : Int) - box.1 → (x : Int) - box.1 < (src.width : Int) →
      0 ≤ (y : Int) - box.2 → (y : Int) - box.2 < (src.height : Int) →
      ((dst.paste src box src).pix x y =
        blendPixel (dst.pix x y)
          (src.pix ((x : Int) - box.1).toNat ((y : Int) - box.2).toNat)
          ((src.pix ((x : Int) - box.1).toNat ((y : Int) - box.2).toNat).a)) ∧
      ((src.pix ((x : Int) - box.1).toNat ((y : Int) - box.2).toNat).Valid →
       (src.pix ((x : Int) - box.1).toNat ((y : Int) - box.2).toNat).a = 255 →
        (dst.paste src box src).pix x y =
          src.pix ((x : Int) - box.1).toNat ((y : Int) - box.2).toNat)) ∧
    (∀ bg fg m : Nat, bg ≤ 255 → fg ≤ 255 → m ≤ 255 →
      blendChan bg fg m =
        (2 * (bg * (255 - m)) + 255) / 510 + (2 * (fg * m) + 255) / 510) := by
  refine ⟨?_, ?_, ?_⟩
  · rw [create_dish_ok hb hn ht]
    simp
  · intro dst src box x y h1 h2 h3 h4
    have hif : (dst.paste src box src).pix x y =
        blendPixel (dst.pix x y)
          (src.pix ((x : Int) - box.1).toNat ((y : Int) - box.2).toNat)
          ((src.pix ((x : Int) - box.1).toNat ((y : Int) - box.2).toNat).a) := by
      simp only [Img.paste]
      rw [if_pos ⟨h1, h2, h3, h4⟩]
    refine ⟨hif, fun hvalid ha => ?_⟩
    rw [hif, ha, blendPixel_full255 _ _ hvalid]
  · intro bg fg m hbg hfg hm
    unfold blendChan
    rw [MULDIV255_round bg (255 - m) hbg (by omega),
      MULDIV255_round fg m hfg hm]

/-- C4 witness: a concrete successful run on which the write of the
composited layer stack is in the trace. -/
theorem claim_C4_witness :
    fsW "b.png" = some testImg ∧ fsW "n.png" = some testImg ∧
    openAll fsW (["t.png"].take 3) = some [testImg] ∧
    (Event.write "o.png"
        (pasteAll blankCanvas (layerList rsmpW testImg testImg [testImg]))
      ∈ (Combine.create_dish rsmpW fsW "b.png" "n.png" ["t.png"]
          "o.png").1) :=
  ⟨rfl, rfl, rfl,
   (claim_C4 rsmpW fsW "b.png" "n.png" ["t.png"] "o.png" testImg testImg
     [testImg] rfl rfl rfl).1⟩

/-- C5: if the bowl, the noodle or one of the first three topping paths
cannot be opened, the run propagates a `missingFile` error to its
caller and its trace contains no write: the save step is never
reached. -/
theorem claim_C5 (resample : Resample) (fs : FS) (b n : String)
    (tps : List String) (o : String)
    (hfail : fs b = none ∨ fs n = none ∨ ∃ p ∈ tps.take 3, fs p = none) :
    (∃ p, fs p = none ∧
      (Combine.create_dish resample fs b n tps o).2 =
        Except.error (DishError.missingFile p)) ∧
    ∀ e ∈ (Combine.create_dish resample fs b n tps o).1,
      e.isWrite = false := by
  rcases create_dish_shape resample fs b n tps o with
    ⟨p, hpn, _, rs, heq, hrs⟩ | ⟨bowl0, noodles0, tops, hb, hn, ht, _⟩
  · constructor
    · exact ⟨p, hpn, by rw [heq]⟩
    · intro e he
      rw [heq] at he
      obtain ⟨q, rfl, _⟩ := hrs e he
      rfl
  · exfalso
    rcases hfail with h | h | h
    · rw [hb] at h
      exact absurd h (by simp)
    · rw [hn] at h
      exact absurd h (by simp)
    · have := (openAll_none_iff fs (tps.take 3)).mpr h
      rw [ht] at this
      exact absurd this (by simp)

/-- C5 witness: on a filesystem where nothing opens, the run errors on
the bowl path and its trace has no write. -/
theorem claim_C5_witness :
    (fsNone "b.png" = none ∨ fsNone "n.png" = none ∨
      ∃ p ∈ ([] : List String).take 3, fsNone p = none) ∧
    ((∃ p, fsNone p = none ∧
      (Combine.create_dish rsmpW fsNone "b.png" "n.png" [] "o.png").2 =
        Except.error (DishError.missingFile p)) ∧
    ∀ e ∈ (Combine.create_dish rsmpW fsNone "b.png" "n.png" [] "o.png").1,
      e.isWrite = false) :=
  ⟨Or.inl rfl,
   claim_C5 rsmpW fsNone "b.png" "n.png" [] "o.png" (Or.inl rfl)⟩

/-- C6: any image the run writes is exactly the canvas's 1024x1024
RGBA, whatever the input images' dimensions, because pasting never
changes a canvas's size or mode. -/
theorem claim_C6 (resample : Resample) (fs : FS) (b n : String)
    (tps : List String) (o p : String) (img : Img)
    (hw : Event.write p img ∈ (Combine.create_dish resample fs b n tps o).1) :
    img.width = 1024 ∧ img.height = 1024 ∧ img.mode = Mode.RGBA ∧
    ∀ (dst src mask : Img) (box : Int × Int),
      (dst.paste src box mask).width = dst.width ∧
      (dst.paste src box mask).height = dst.height ∧
      (dst.paste src box mask).mode = dst.mode := by
  have hpaste : ∀ (dst src mask : Img) (box : Int × Int),
      (dst.paste src box mask).width = dst.width ∧
      (dst.paste src box mask).height = dst.height ∧
      (dst.paste src box mask).mode = dst.mode := by
    intro dst src mask box
    refine ⟨?_, ?_, ?_⟩ <;> simp [Img.paste]
  rcases create_dish_shape resample fs b n tps o with
    ⟨q, _, _, rs, heq, hrs⟩ | ⟨bowl0, noodles0, tops, _, _, _, heq⟩
  · rw [heq] at hw
    obtain ⟨q', heq', _⟩ := hrs _ hw
    exact absurd heq' (by simp)
  · rw [heq] at hw
    rcases List.mem_cons.mp hw with h1 | hw2
    · exact absurd h1 (by simp)
    rcases List.mem_cons.mp hw2 with h1 | hw3
    · exact absurd h1 (by simp)
    rcases List.mem_append.mp hw3 with h1 | h1
    · obtain ⟨q', _, he⟩ := List.mem_map.mp h1
      exact absurd he (by simp)
    rcases List.mem_cons.mp h1 with h2 | h3
    · obtain ⟨hpq, himg⟩ := Event.write.inj h2
      subst himg
      have hd := pasteAll_dims (layerList resample bowl0 noodles0 tops)
        blankCanvas
      exact ⟨hd.1, hd.2.1, hd.2.2, hpaste⟩
    rcases List.mem_cons.mp h3 with h2 | h4
    · exact absurd h2 (by simp)
    exact absurd h4 (by simp)

/-- C6 witness: the image written by a concrete run is 1024 wide. -/
theorem claim_C6_witness :
    (Event.write "o.png"
        (pasteAll blankCanvas (layerList rsmpW testImg testImg []))
      ∈ (Combine.create_dish rsmpW fsW "b.png" "n.png" [] "o.png").1) ∧
    (pasteAll blankCanvas (layerList rsmpW testImg testImg [])).width
      = 1024 := by
  have hmem : Event.write "o.png"
      (pasteAll blankCanvas (layerList rsmpW testImg testImg []))
      ∈ (Combine.create_dish rsmpW fsW "b.png" "n.png" [] "o.png").1 := by
    rw [@create_dish_ok rsmpW fsW "b.png" "n.png" [] "o.png" testImg testImg
      [] rfl rfl rfl]
    simp
  exact ⟨hmem,
    (claim_C6 rsmpW fsW "b.png" "n.png" [] "o.png" "o.png" _ hmem).1⟩

/-- C7: `create_dish` is deterministic — it branches on no state other
than the contents of the input files it reads, so two runs over
filesystems that agree on the bowl path, the noodle path and the first
three topping paths (identical input file contents) produce identical
results, traces and output image included. -/
theorem claim_C7 (resample : Resample) (fs1 fs2 : FS) (b n : String)
    (tps : List String) (o : String)
    (hagree : ∀ p ∈ b :: n :: tps.take 3, fs1 p = fs2 p) :
    Combine.create_dish resample fs1 b n tps o =
      Combine.create_dish resample fs2 b n tps o := by
  have hb : fs1 b = fs2 b := hagree b (by simp)
  have hn : fs1 n = fs2 n := hagree n (by simp)
  have hl : ∀ p ∈ tps.take 3, fs1 p = fs2 p := fun p hp =>
    hagree p (by simp [hp])
  rw [create_dish_eq_fb, create_dish_eq_fb]
  cases hfb : fs1 b with
  | none =>
    rw [create_dish_fb_bowl_none hfb, create_dish_fb_bowl_none (hb ▸ hfb)]
  | some bowl0 =>
    have hfb2 : fs2 b = some bowl0 := hb ▸ hfb
    cases hfn : fs1 n with
    | none =>
      rw [create_dish_fb_noodle_none hfb hfn,
        create_dish_fb_noodle_none hfb2 (hn ▸ hfn)]
    | some noodles0 =>
      have hfn2 : fs2 n = some noodles0 := hn ▸ hfn
      have hloop := toppingLoop_congr resample fs1 fs2 (1024, 1024) (0, 0)
        (tps.take 3) 0 (baseCanvas resample bowl0 noodles0)
        [Event.read b, Event.read n] hl
      rcases htl : toppingLoop resample fs1 (1024, 1024) (0, 0) 0
        (tps.take 3) (baseCanvas resample bowl0 noodles0)
        [Event.read b, Event.read n] with ⟨tr, r⟩
      have htl2 : toppingLoop resample fs2 (1024, 1024) (0, 0) 0
          (tps.take 3) (baseCanvas resample bowl0 noodles0)
          [Event.read b, Event.read n] = (tr, r) := hloop.symm.trans htl
      cases r with
      | error e =>
        rw [create_dish_fb_loop_err hfb hfn htl,
          create_dish_fb_loop_err hfb2 hfn2 htl2]
      | ok img3 =>
        rw [create_dish_fb_loop_ok hfb hfn htl,
          create_dish_fb_loop_ok hfb2 hfn2 htl2]

/-- C7 witness: two (equal) filesystems agreeing on the inputs give
equal runs. -/
theorem claim_C7_witness :
    (∀ p ∈ "b.png" :: "n.png" :: (["t.png"] : List String).take 3,
      fsW p = fsW p) ∧
    Combine.create_dish rsmpW fsW "b.png" "n.png" ["t.png"] "o.png" =
      Combine.create_dish rsmpW fsW "b.png" "n.png" ["t.png"] "o.png" :=
  ⟨fun _ _ => rfl,
   claim_C7 rsmpW fsW fsW "b.png" "n.png" ["t.png"] "o.png"
     (fun _ _ => rfl)⟩

/-- No writes in a take of a read-mapped list. -/
theorem countP_write_take_map (k : Nat) (l : List String) :
    ((l.map Event.read).take k).countP Event.isWrite = 0 := by
  rw [← List.map_take, countP_write_map]

/-- C8 counterexample: on a concrete successful run the trace contains
an event that is neither a file read nor a file write — the success
message printed to stdout — so reading the inputs and writing the one
output file are not the only I/O side effects. -/
theorem claim_C8_cex :
    ∃ e ∈ (Combine.create_dish rsmpW fsW "b.png" "n.png" [] "o.png").1,
      e.isRead = false ∧ e.isWrite = false := by
  refine ⟨Event.print (successMsg "o.png"), ?_, rfl, rfl⟩
  rw [@create_dish_ok rsmpW fsW "b.png" "n.png" [] "o.png" testImg testImg
    [] rfl rfl rfl]
  simp

/-- C8 (amended): on success, the run's file-system side effects are
exactly the reads of the given input files followed by one write at
`output_path`; the only further effect is the one success message
printed to stdout, and nothing else. -/
theorem claim_C8 (resample : Resample) (fs : FS) (b n : String)
    (tps : List String) (o : String) (bowl0 noodles0 : Img)
    (tops : List Img) (hb : fs b = some bowl0) (hn : fs n = some noodles0)
    (ht : openAll fs (tps.take 3) = some tops) :
    (∃ img, Combine.create_dish resample fs b n tps o =
      (Event.read b :: Event.read n :: ((tps.take 3).map Event.read ++
        [Event.write o img, Event.print (successMsg o)]),
       Except.ok o)) ∧
    ((Combine.create_dish resample fs b n tps o).1.countP Event.isWrite)
      = 1 := by
  constructor
  · exact ⟨pasteAll blankCanvas (layerList resample bowl0 noodles0 tops),
      create_dish_ok hb hn ht⟩
  · rw [create_dish_ok hb hn ht]
    simp [List.countP_cons, List.countP_append, List.countP_nil,
      countP_write_map, countP_write_take_map, Event.isWrite]

/-- C8 witness: a concrete successful run with the stated trace shape
and exactly one write. -/
theorem claim_C8_witness :
    fsW "b.png" = some testImg ∧ fsW "n.png" = some testImg ∧
    openAll fsW (([] : List String).take 3) = some [] ∧
    ((∃ img, Combine.create_dish rsmpW fsW "b.png" "n.png" [] "o.png" =
      (Event.read "b.png" :: Event.read "n.png" ::
        ((([] : List String).take 3).map Event.read ++
          [Event.write "o.png" img, Event.print (successMsg "o.png")]),
       Except.ok "o.png")) ∧
    ((Combine.create_dish rsmpW fsW "b.png" "n.png" [] "o.png").1.countP
      Event.isWrite) = 1) :=
  ⟨rfl, rfl, rfl,
   claim_C8 rsmpW fsW "b.png" "n.png" [] "o.png" testImg testImg []
     rfl rfl rfl⟩

/-- C9: the offsets-table index of the topping loop is always in
bounds, because the topping list is sliced to at most three entries
first: the `else (0, 0)` fallback is unreachable, so the run does not
depend on the fallback value at all, and every index used is below the
table's length. -/
theorem claim_C9 (fb : Int × Int) (resample : Resample) (fs : FS)
    (b n : String) (tps : List String) (o : String) :
    create_dish_fb fb resample fs b n tps o =
      Combine.create_dish resample fs b n tps o ∧
    ∀ i, i < (tps.take 3).length → i < offsets.length := by
  constructor
  · rw [create_dish_eq_fb]
    cases hfb : fs b with
    | none =>
      rw [create_dish_fb_bowl_none hfb, create_dish_fb_bowl_none hfb]
    | some bowl0 =>
      cases hfn : fs n with
      | none =>
        rw [create_dish_fb_noodle_none hfb hfn,
          create_dish_fb_noodle_none hfb hfn]
      | some noodles0 =>
        have hfbeq := toppingLoop_fb resample fs (1024, 1024) fb
          (tps.take 3) 0 (baseCanvas resample bowl0 noodles0)
          [Event.read b, Event.read n]
          (by simp only [List.length_take, Nat.zero_add]; omega)
        rcases htl : toppingLoop resample fs (1024, 1024) fb 0
          (tps.take 3) (baseCanvas resample bowl0 noodles0)
          [Event.read b, Event.read n] with ⟨tr, r⟩
        have htl0 : toppingLoop resample fs (1024, 1024) (0, 0) 0
            (tps.take 3) (baseCanvas resample bowl0 noodles0)
            [Event.read b, Event.read n] = (tr, r) :=
          hfbeq.symm.trans htl
        cases r with
        | error e =>
          rw [create_dish_fb_loop_err hfb hfn htl,
            create_dish_fb_loop_err hfb hfn htl0]
        | ok img3 =>
          rw [create_dish_fb_loop_ok hfb hfn htl,
            create_dish_fb_loop_ok hfb hfn htl0]
  · intro i hi
    rw [List.length_take] at hi
    simp only [offsets, List.length_cons, List.length_nil]
    omega

/-- C9 witness: with an arbitrary junk fallback the concrete run is
unchanged, and index 0 is in bounds for a one-topping list. -/
theorem claim_C9_witness :
    (create_dish_fb (99, 99) rsmpW fsW "b.png" "n.png" ["t.png"] "o.png" =
      Combine.create_dish rsmpW fsW "b.png" "n.png" ["t.png"] "o.png") ∧
    (0 < ((["t.png"] : List String).take 3).length ∧ 0 < offsets.length) :=
  ⟨(claim_C9 (99, 99) rsmpW fsW "b.png" "n.png" ["t.png"] "o.png").1,
   by decide,
   (claim_C9 (99, 99) rsmpW fsW "b.png" "n.png" ["t.png"] "o.png").2 0
     (by decide)⟩

/-- The topping loop of `create_dish.py` is the generic loop at the
`(0, 0)` fallback. -/
theorem toppingLoopP_eq (resample : Resample) (fs : FS) (cs : Nat × Nat) :
    ∀ (l : List String) (i : Nat) (img : Img) (tr : List Event),
      CreateDishPy.toppingLoopP resample fs cs i l img tr =
        toppingLoop resample fs cs (0, 0) i l img tr
  | [], _, _, _ => rfl
  | p :: rest, i, img, tr => by
    cases hp : fs p with
    | none =>
      simp only [CreateDishPy.toppingLoopP, toppingLoop, hp]
    | some t0 =>
      simp only [CreateDishPy.toppingLoopP, toppingLoop, hp]
      exact toppingLoopP_eq resample fs cs rest (i + 1) _ _

/-- Equation: `create_dish.py`'s routine on an unopenable bowl path. -/
theorem createDishPy_bowl_none {resample : Resample} {fs : FS}
    {b n : String} {tps : List String} {o : String} (hb : fs b = none) :
    CreateDishPy.create_dish resample fs b n tps o =
      ([Event.read b], Except.error (DishError.missingFile b)) := by
  simp only [CreateDishPy.create_dish, hb]

/-- Equation: `create_dish.py`'s routine on an unopenable noodle
path. -/
theorem createDishPy_noodle_none {resample : Resample} {fs : FS}
    {b n : String} {tps : List String} {o : String} {bowl0 : Img}
    (hb : fs b = some bowl0) (hn : fs n = none) :
    CreateDishPy.create_dish resample fs b n tps o =
      ([Event.read b, Event.read n],
       Except.error (DishError.missingFile n)) := by
  simp only [CreateDishPy.create_dish, hb, hn]

/-- Equation: `create_dish.py`'s routine under a failing topping
loop. -/
theorem createDishPy_loop_err {resample : Resample} {fs : FS}
    {b n : String} {tps : List String} {o : String}
    {bowl0 noodles0 : Img} {tr : List Event} {e : DishError}
    (hb : fs b = some bowl0) (hn : fs n = some noodles0)
    (hloop : toppingLoop resample fs (1024, 1024) (0, 0) 0 (tps.take 3)
      (baseCanvas resample bowl0 noodles0) [Event.read b, Event.read n] =
        (tr, Except.error e)) :
    CreateDishPy.create_dish resample fs b n tps o =
      (tr, Except.error e) := by
  have hloopP := (toppingLoopP_eq resample fs (1024, 1024) (tps.take 3) 0
    (baseCanvas resample bowl0 noodles0)
    [Event.read b, Event.read n]).trans hloop
  simp only [baseCanvas, pasteLayer, blankCanvas] at hloopP
  simp only [CreateDishPy.create_dish, hb, hn]
  rw [hloopP]

/-- Equation: `create_dish.py`'s routine under a successful topping
loop. -/
theorem createDishPy_loop_ok {resample : Resample} {fs : FS}
    {b n : String} {tps : List String} {o : String}
    {bowl0 noodles0 : Img} {tr : List Event} {img3 : Img}
    (hb : fs b = some bowl0) (hn : fs n = some noodles0)
    (hloop : toppingLoop resample fs (1024, 1024) (0, 0) 0 (tps.take 3)
      (baseCanvas resample bowl0 noodles0) [Event.read b, Event.read n] =
        (tr, Except.ok img3)) :
    CreateDishPy.create_dish resample fs b n tps o =
      (tr ++ [Event.write o img3, Event.print (successMsg o)],
       Except.ok o) := by
  have hloopP := (toppingLoopP_eq resample fs (1024, 1024) (tps.take 3) 0
    (baseCanvas resample bowl0 noodles0)
    [Event.read b, Event.read n]).trans hloop
  simp only [baseCanvas, pasteLayer, blankCanvas] at hloopP
  simp only [CreateDishPy.create_dish, hb, hn, successMsg]
  rw [hloopP]

/-- C10: the `create_dish` of `src/dishes/combine.py` and the
`create_dish` of `src/dishes/create_dish.py` are behaviorally
equivalent: on every filesystem, resampling kernel and arguments they
produce the same trace (hence the same output image) and the same
return value. -/
theorem claim_C10 (resample : Resample) (fs : FS) (b n : String)
    (tps : List String) (o : String) :
    Combine.create_dish resample fs b n tps o =
      CreateDishPy.create_dish resample fs b n tps o := by
  rw [create_dish_eq_fb]
  cases hfb : fs b with
  | none =>
    rw [create_dish_fb_bowl_none hfb, createDishPy_bowl_none hfb]
  | some bowl0 =>
    cases hfn : fs n with
    | none =>
      rw [create_dish_fb_noodle_none hfb hfn,
        createDishPy_noodle_none hfb hfn]
    | some noodles0 =>
      rcases htl : toppingLoop resample fs (1024, 1024) (0, 0) 0
        (tps.take 3) (baseCanvas resample bowl0 noodles0)
        [Event.read b, Event.read n] with ⟨tr, r⟩
      cases r with
      | error e =>
        rw [create_dish_fb_loop_err hfb hfn htl,
          createDishPy_loop_err hfb hfn htl]
      | ok img3 =>
        rw [create_dish_fb_loop_ok hfb hfn htl,
          createDishPy_loop_ok hfb hfn htl]
